import Mathlib

/-!
Shallow embedding of the Quossi Q-Score engine
(`src/app/api/quossi_2_0/route.ts` and `src/app/api/qscore-groq/route.ts`)
together with proofs of the specification's testable properties.

JS numbers on the code paths modelled here only ever hold integers or exact
small-denominator fractions, so they are embedded as `ℤ`/`ℚ`; `Math.round`,
`Math.trunc`, `Math.floor` become the corresponding exact operations.
-/

namespace Quossi

/-- JS `Math.round`: round half towards positive infinity. -/
def jsRound (x : ℚ) : ℤ := ⌊x + 1 / 2⌋

/-- JS `Math.trunc`: drop the fractional part (round towards zero). -/
def jsTrunc (x : ℚ) : ℤ := if 0 ≤ x then ⌊x⌋ else ⌈x⌉

/-- `clamp(x, lo, hi)` from `quossi_2_0/route.ts`: `Math.max(lo, Math.min(hi, x))`. -/
def clamp (x lo hi : ℤ) : ℤ := max lo (min hi x)

/-- `quantize` from `qscore-groq/route.ts`: snap a score to its band midpoint. -/
def quantize (q : ℤ) : ℤ :=
  if q < 200 then 150
  else if q < 300 then 250
  else if q < 400 then 350
  else if q < 500 then 450
  else 550

/-- `ema` from `qscore-groq/route.ts`:
`last == null ? current : Math.round(last * (1 - alpha) + current * alpha)`,
default `alpha = 0.3`. -/
def ema (current : ℤ) (last : Option ℤ) (alpha : ℚ := 3 / 10) : ℤ :=
  match last with
  | none => current
  | some l => jsRound ((l : ℚ) * (1 - alpha) + (current : ℚ) * alpha)

/-- A row of the `RANGES` table in `quossi_2_0/route.ts`. -/
structure RangeRow where
  name : String
  low : ℤ
  high : ℤ
  archetype : String
  element : String
  motto : String
deriving DecidableEq, Repr

/-- The object `assignRange` returns (name/archetype/element/motto). -/
structure RangeInfo where
  name : String
  archetype : String
  element : String
  motto : String
deriving DecidableEq, Repr

def stormRow : RangeRow := ⟨"🌪 Storm", 100, 199, "The Reactor", "Fire", "Emotion first, logic later."⟩

def groundRow : RangeRow := ⟨"🌍 Ground", 200, 299, "The Builder", "Earth", "Steady hands make heavy bags."⟩

def flowRow : RangeRow := ⟨"🌊 Flow", 300, 399, "The Surfer", "Water", "Don’t fight the wave — ride it."⟩

def goldRow : RangeRow := ⟨"🏆 Gold", 400, 499, "The Strategist", "Air", "Silence wins faster."⟩

def sunRow : RangeRow := ⟨"☀️ Sun", 500, 600, "The Oracle", "Light", "Peace is the ultimate edge."⟩

/-- The `RANGES` table from `quossi_2_0/route.ts`. -/
def RANGES : List RangeRow := [stormRow, groundRow, flowRow, goldRow, sunRow]

/-- Projection of a table row to the returned record. -/
def infoOf (r : RangeRow) : RangeInfo := ⟨r.name, r.archetype, r.element, r.motto⟩

/-- Fallback object returned by `assignRange` when no interval matches. -/
def unknownRange : RangeInfo := ⟨"Unknown", "-", "-", "-"⟩

/-- The for-loop body of `assignRange`: first row whose interval contains the score. -/
def assignRangeGo (qscore : ℤ) : List RangeRow → RangeInfo
  | [] => unknownRange
  | r :: rs => if r.low ≤ qscore ∧ qscore ≤ r.high then infoOf r else assignRangeGo qscore rs

/-- `assignRange` from `quossi_2_0/route.ts`. -/
def assignRange (qscore : ℤ) : RangeInfo := assignRangeGo qscore RANGES

/-- `r.low ≤ q ≤ r.high`: the loop guard of `assignRange`. -/
def bandContains (r : RangeRow) (q : ℤ) : Prop := r.low ≤ q ∧ q ≤ r.high

instance (r : RangeRow) (q : ℤ) : Decidable (bandContains r q) := by
  unfold bandContains; infer_instance

/-- JS string `.length` counts UTF-16 code units. -/
def jsLength (s : String) : ℕ := s.data.foldl (fun n c => n + c.utf16Size.toNat) 0

/-- Line terminators, which JS regex `.` does not match. -/
def isLineTerm (c : Char) : Bool :=
  decide (c.toNat = 10 ∨ c.toNat = 13 ∨ c.toNat = 0x2028 ∨ c.toNat = 0x2029)

/-- Number of matches of `/(.)\1{2,}/g`: maximal runs of 3+ identical
(non-line-terminator) characters; the greedy quantifier consumes a whole run. -/
def countRepeatRuns : List Char → ℕ
  | [] => 0
  | c :: rest =>
      (if 3 ≤ (rest.takeWhile (· = c)).length + 1 ∧ isLineTerm c = false then 1 else 0)
        + countRepeatRuns (rest.dropWhile (· = c))
termination_by l => l.length
decreasing_by
  simp only [List.length_cons]
  exact Nat.lt_succ_of_le (List.dropWhile_suffix _).length_le

/-- `emotionalStability` from `quossi_2_0/route.ts`. -/
def emotionalStability (message : String) : ℤ :=
  let text := message
  let length : ℕ := max 1 (jsLength text)
  let exclamQ : ℕ := (text.data.filter (fun c => c = '!' ∨ c = '?')).length
  let caps : ℕ := (text.data.filter (fun c => 'A' ≤ c ∧ c ≤ 'Z')).length
  let repeats : ℕ := countRepeatRuns text.data
  let rawInstability : ℚ :=
    (exclamQ : ℚ) * 1.2 + max 0 ((caps : ℚ) - 10) * 0.5 + (repeats : ℚ) * 2.0
  let normalized : ℚ := rawInstability / (1 + (length : ℚ) / 120)
  max 0 (100 - jsTrunc ((jsRound (normalized * 3) : ℤ) : ℚ))

/-- Characters the user-id sanitizers keep: `[a-zA-Z0-9_-]`. -/
def isUserChar (c : Char) : Bool :=
  decide ((97 ≤ c.toNat ∧ c.toNat ≤ 122) ∨ (65 ≤ c.toNat ∧ c.toNat ≤ 90) ∨
    (48 ≤ c.toNat ∧ c.toNat ≤ 57) ∨ c.toNat = 95 ∨ c.toNat = 45)

/-- Code points JS `String.prototype.trim` removes. -/
def jsWhitespaceCodes : List ℕ :=
  [9, 10, 11, 12, 13, 32, 160, 0x1680, 0x2000, 0x2001, 0x2002, 0x2003, 0x2004,
   0x2005, 0x2006, 0x2007, 0x2008, 0x2009, 0x200A, 0x2028, 0x2029, 0x202F,
   0x205F, 0x3000, 0xFEFF]

def isJsWhitespace (c : Char) : Bool := decide (c.toNat ∈ jsWhitespaceCodes)

/-- JS `trim()`: drop whitespace from both ends. -/
def jsTrim (cs : List Char) : List Char :=
  ((cs.dropWhile isJsWhitespace).reverse.dropWhile isJsWhitespace).reverse

/-- `trim()` on a whole string. -/
def jsTrimStr (s : String) : String := String.mk (jsTrim s.data)

/-- Replacement applied by `replace(/[^a-zA-Z0-9_\-]/g, "_")`. -/
def replDisallowed (c : Char) : Char := if isUserChar c then c else '_'

/-- `safeUser` from `quossi_2_0/route.ts`:
`(u || "default").trim().replace(/[^a-zA-Z0-9_\-]/g, "_")`. -/
def safeUser (u : String) : String :=
  let base := if u = "" then "default" else u
  String.mk ((jsTrim base.data).map replDisallowed)

/-- The per-user memory file name, `MEMORY_FILE_TEMPLATE(safeUser(user))`. -/
def memoryFileName (user : String) : String :=
  "quossi_memory_" ++ safeUser user ++ ".json"

/-- The sanitizer in `getUserId` of `qscore-groq/route.ts`:
`u.replace(/[^a-zA-Z0-9_-]/g, "_")` (storage key `user_id`). -/
def sanitizeId (u : String) : String := String.mk (u.data.map replDisallowed)

/-- A logical user id already made only of the allowed characters. -/
def cleanId (u : String) : Prop := u ≠ "" ∧ u.data.all isUserChar = true

instance (u : String) : Decidable (cleanId u) := by
  unfold cleanId; infer_instance

/-- JS word characters (`\w` is `[A-Za-z0-9_]`), delimiting `\b` boundaries. -/
def isWordChar (c : Char) : Bool :=
  decide ((97 ≤ c.toNat ∧ c.toNat ≤ 122) ∨ (65 ≤ c.toNat ∧ c.toNat ≤ 90) ∨
    (48 ≤ c.toNat ∧ c.toNat ≤ 57) ∨ c.toNat = 95)

/-- `\b` holds before the match position: start of string or a non-word char. -/
def noWordBefore : Option Char → Bool
  | none => true
  | some p => !isWordChar p

/-- `\b` holds after the match: end of string or a non-word char. -/
def noWordAtHead : List Char → Bool
  | [] => true
  | c :: _ => !isWordChar c

/-- Occurrences of `` `\btok\b` `` in `cs` (g-flag count); `prev` is the
character before the current position. Keyword tokens are all word characters,
so boundary-delimited matches cannot overlap and counting every matching
position equals the regex scan count. -/
def countOcc (tok : List Char) : Option Char → List Char → ℕ
  | _, [] => 0
  | prev, c :: rest =>
      (if tok.isPrefixOf (c :: rest) && noWordBefore prev &&
          noWordAtHead ((c :: rest).drop tok.length) then 1 else 0)
        + countOcc tok (some c) rest

/-- Word-boundary match count of one keyword in the (lower-cased) message,
as in `tokenCounts` of `quossi_2_0/route.ts`. -/
def countToken (msg tok : String) : ℕ := countOcc tok.data none msg.data

/-- ASCII model of JS `toLowerCase()` (all keywords are ASCII). -/
def jsToLower (s : String) : String := String.mk (s.data.map Char.toLower)

def anxiousWeights : List (String × ℤ) :=
  [("angry", 2), ("mad", 2), ("frustrated", 3), ("lost", 2), ("hate", 2), ("sad", 2),
   ("anxious", 3), ("scared", 3), ("panic", 3), ("fear", 2), ("stressed", 3)]

def positiveWeights : List (String × ℤ) :=
  [("happy", 2), ("grateful", 2), ("confident", 3), ("calm", 3), ("peaceful", 3),
   ("good", 1), ("winning", 2), ("profit", 2), ("composed", 2), ("focused", 1)]

def highEnergyWeights : List (String × ℤ) :=
  [("excited", 3), ("pumped", 3), ("ready", 2), ("motivated", 2), ("amped", 3),
   ("hyped", 3), ("wired", 2)]

def neutralWeights : List (String × ℤ) :=
  [("nervous", 1), ("unsure", 1), ("maybe", 1), ("confused", 2), ("ok", 1), ("fine", 1)]

/-- The `EMOTION_WEIGHTS` table from `quossi_2_0/route.ts`, in declaration order. -/
def EMOTION_WEIGHTS : List (String × List (String × ℤ)) :=
  [("anxious", anxiousWeights), ("positive", positiveWeights),
   ("high-energy", highEnergyWeights), ("neutral", neutralWeights)]

/-- `Σ weight × occurrence_count` over one category's keyword table. -/
def keywordScore (msg : String) (weights : List (String × ℤ)) : ℤ :=
  weights.foldl (fun acc tw => acc + tw.2 * (countToken msg tw.1 : ℤ)) 0

/-- The `scores` object of `analyzeTone` after the punctuation/caps
adjustments, in declaration order. -/
def toneScores (message : String) : List (String × ℤ) :=
  let msg := jsToLower message
  let exclam : ℕ := (message.data.filter (fun c => c = '!')).length
  let caps : ℕ := (message.data.filter (fun c => 'A' ≤ c ∧ c ≤ 'Z')).length
  [("anxious", keywordScore msg anxiousWeights + jsTrunc ((exclam : ℚ) * 0.5)),
   ("positive", keywordScore msg positiveWeights),
   ("high-energy", keywordScore msg highEnergyWeights
      + jsTrunc (max 0 ((caps : ℚ) - 8) * 0.2)),
   ("neutral", keywordScore msg neutralWeights)]

/-- Stable insertion (descending by score): models one step of JS
`sort((a, b) => b[1] - a[1])`, which is stable, so an element inserted from
the left goes before equal-scored elements. -/
def insertDesc (x : String × ℤ) : List (String × ℤ) → List (String × ℤ)
  | [] => [x]
  | y :: ys => if y.2 > x.2 then y :: insertDesc x ys else x :: y :: ys

/-- Stable descending sort by score. -/
def sortByScoreDesc : List (String × ℤ) → List (String × ℤ)
  | [] => []
  | x :: xs => insertDesc x (sortByScoreDesc xs)

/-- `analyzeTone` from `quossi_2_0/route.ts`. -/
def analyzeTone (message : String) : String :=
  let scores := toneScores message
  if scores.all (fun s => s.2 == 0) then "neutral"
  else ((sortByScoreDesc scores).headD ("neutral", 0)).1

/-- The tone selection rule in the words of the claim: the category with the
strictly highest adjusted total wins; `neutral` if all totals are zero; ties go
to the first category in table declaration order. -/
def claimedTone (message : String) : String :=
  match toneScores message with
  | [(_, a), (_, p), (_, h), (_, n)] =>
      if a = 0 ∧ p = 0 ∧ h = 0 ∧ n = 0 then "neutral"
      else if a ≥ p ∧ a ≥ h ∧ a ≥ n then "anxious"
      else if p ≥ h ∧ p ≥ n then "positive"
      else if h ≥ n then "high-energy"
      else "neutral"
  | _ => "neutral"

/-- First maximum (by score) of a nonempty list, scanning left to right:
the element a stable descending sort puts first. -/
def firstMaxRec (x : String × ℤ) : List (String × ℤ) → String × ℤ
  | [] => x
  | y :: ys => if (firstMaxRec y ys).2 > x.2 then firstMaxRec y ys else x

/-- Step classification of one adjacent pair in `streakDirection`. -/
def stepOf (diff : ℤ) : String :=
  if diff > 0 then "up" else if diff < 0 then "down" else "steady"

/-- The backward loop of `streakDirection`, on the reversed score list. -/
def streakAux : String → ℕ → List ℤ → String × ℕ
  | dir, len, x :: y :: rest =>
      if dir = "steady" then streakAux (stepOf (x - y)) 1 (y :: rest)
      else if stepOf (x - y) = dir ∧ stepOf (x - y) ≠ "steady" then
        streakAux dir (len + 1) (y :: rest)
      else (dir, len)
  | dir, len, _ => (dir, len)

/-- `streakDirection` from `quossi_2_0/route.ts`. -/
def streakDirection (scores : List ℤ) : String × ℕ :=
  if scores.length < 2 then ("steady", 1)
  else streakAux "steady" 1 scores.reverse

/-- UTF-8 encoding of one code point (`crypto.update` treats the message as
UTF-8). -/
def utf8Encode (n : ℕ) : List ℕ :=
  if n < 0x80 then [n]
  else if n < 0x800 then [0xC0 + n / 0x40, 0x80 + n % 0x40]
  else if n < 0x10000 then [0xE0 + n / 0x1000, 0x80 + (n / 0x40) % 0x40, 0x80 + n % 0x40]
  else [0xF0 + n / 0x40000, 0x80 + (n / 0x1000) % 0x40, 0x80 + (n / 0x40) % 0x40, 0x80 + n % 0x40]

def toUTF8Bytes (s : String) : List ℕ :=
  s.data.foldr (fun c acc => utf8Encode c.toNat ++ acc) []

/-- MD5 per-round left-rotate amounts (RFC 1321). -/
def md5ShiftTable : List ℕ :=
  [7, 12, 17, 22, 7, 12, 17, 22, 7, 12, 17, 22, 7, 12, 17, 22,
   5, 9, 14, 20, 5, 9, 14, 20, 5, 9, 14, 20, 5, 9, 14, 20,
   4, 11, 16, 23, 4, 11, 16, 23, 4, 11, 16, 23, 4, 11, 16, 23,
   6, 10, 15, 21, 6, 10, 15, 21, 6, 10, 15, 21, 6, 10, 15, 21]

/-- MD5 sine-derived constants `floor(|sin(i+1)| * 2^32)` (RFC 1321). -/
def md5SineTable : List ℕ :=
  [0xd76aa478, 0xe8c7b756, 0x242070db, 0xc1bdceee,
   0xf57c0faf, 0x4787c62a, 0xa8304613, 0xfd469501,
   0x698098d8, 0x8b44f7af, 0xffff5bb1, 0x895cd7be,
   0x6b901122, 0xfd987193, 0xa679438e, 0x49b40821,
   0xf61e2562, 0xc040b340, 0x265e5a51, 0xe9b6c7aa,
   0xd62f105d, 0x02441453, 0xd8a1e681, 0xe7d3fbc8,
   0x21e1cde6, 0xc33707d6, 0xf4d50d87, 0x455a14ed,
   0xa9e3e905, 0xfcefa3f8, 0x676f02d9, 0x8d2a4c8a,
   0xfffa3942, 0x8771f681, 0x6d9d6122, 0xfde5380c,
   0xa4beea44, 0x4bdecfa9, 0xf6bb4b60, 0xbebfbc70,
   0x289b7ec6, 0xeaa127fa, 0xd4ef3085, 0x04881d05,
   0xd9d4d039, 0xe6db99e5, 0x1fa27cf8, 0xc4ac5665,
   0xf4292244, 0x432aff97, 0xab9423a7, 0xfc93a039,
   0x655b59c3, 0x8f0ccc92, 0xffeff47d, 0x85845dd1,
   0x6fa87e4f, 0xfe2ce6e0, 0xa3014314, 0x4e0811a1,
   0xf7537e82, 0xbd3af235, 0x2ad7d2bb, 0xeb86d391]

/-- Reduce to a 32-bit word. -/
def w32 (x : ℕ) : ℕ := x % 2 ^ 32

/-- 32-bit bitwise complement. -/
def not32 (x : ℕ) : ℕ := 0xFFFFFFFF - w32 x

/-- 32-bit left rotation. -/
def rotl32 (x n : ℕ) : ℕ := w32 ((w32 x <<< n) ||| (w32 x >>> (32 - n)))

/-- MD5 padding: `0x80`, zeros to 56 mod 64, then the 64-bit little-endian
bit length. -/
def md5Pad (msg : List ℕ) : List ℕ :=
  let len := msg.length
  let zeros := (119 - len % 64) % 64
  let bitLen := (8 * len) % 2 ^ 64
  msg ++ [0x80] ++ List.replicate zeros 0 ++
    (List.range 8).map (fun i => (bitLen >>> (8 * i)) % 256)

/-- Little-endian 32-bit word `g` of a 64-byte chunk. -/
def leWord (chunk : List ℕ) (g : ℕ) : ℕ :=
  chunk.getD (4 * g) 0 + chunk.getD (4 * g + 1) 0 * 0x100 +
    chunk.getD (4 * g + 2) 0 * 0x10000 + chunk.getD (4 * g + 3) 0 * 0x1000000

/-- The four MD5 round functions F, G, H, I selected by round index. -/
def md5Mix (i b c d : ℕ) : ℕ :=
  if i < 16 then (b &&& c) ||| (not32 b &&& d)
  else if i < 32 then (d &&& b) ||| (not32 d &&& c)
  else if i < 48 then b ^^^ c ^^^ d
  else c ^^^ (b ||| not32 d)

/-- Message-word schedule of MD5. -/
def md5MsgIndex (i : ℕ) : ℕ :=
  if i < 16 then i
  else if i < 32 then (5 * i + 1) % 16
  else if i < 48 then (3 * i + 5) % 16
  else (7 * i) % 16

/-- One of the 64 MD5 rounds on state (a, b, c, d). -/
def md5Round (chunk : List ℕ) (st : ℕ × ℕ × ℕ × ℕ) (i : ℕ) : ℕ × ℕ × ℕ × ℕ :=
  let f := w32 (md5Mix i st.2.1 st.2.2.1 st.2.2.2 + st.1 +
    md5SineTable.getD i 0 + leWord chunk (md5MsgIndex i))
  (st.2.2.2, w32 (st.2.1 + rotl32 f (md5ShiftTable.getD i 0)), st.2.1, st.2.2.1)

/-- Process one 64-byte chunk. -/
def md5Chunk (st : ℕ × ℕ × ℕ × ℕ) (chunk : List ℕ) : ℕ × ℕ × ℕ × ℕ :=
  let r := (List.range 64).foldl (md5Round chunk) st
  (w32 (st.1 + r.1), w32 (st.2.1 + r.2.1), w32 (st.2.2.1 + r.2.2.1), w32 (st.2.2.2 + r.2.2.2))

/-- Split a byte list into 64-byte chunks. -/
def chunks64 (l : List ℕ) : List (List ℕ) :=
  if l = [] then [] else l.take 64 :: chunks64 (l.drop 64)
termination_by l.length
decreasing_by
  simp only [List.length_drop]
  have : l.length ≠ 0 := fun h => by simp_all [List.length_eq_zero]
  omega

/-- Serialize a 32-bit word little-endian. -/
def wordLEBytes (w : ℕ) : List ℕ :=
  [w % 256, (w >>> 8) % 256, (w >>> 16) % 256, (w >>> 24) % 256]

/-- The 16 MD5 digest bytes of a byte message (RFC 1321; checked against the
standard test vectors). -/
def md5Digest (msg : List ℕ) : List ℕ :=
  let st := (chunks64 (md5Pad msg)).foldl md5Chunk
    (0x67452301, 0xefcdab89, 0x98badcfe, 0x10325476)
  wordLEBytes st.1 ++ wordLEBytes st.2.1 ++ wordLEBytes st.2.2.1 ++ wordLEBytes st.2.2.2

def hexDigit (n : ℕ) : Char := if n < 10 then Char.ofNat (48 + n) else Char.ofNat (87 + n)

/-- `crypto.createHash("md5").update(message).digest("hex")`: lowercase hex
digest of the UTF-8 bytes. -/
def md5Hex (s : String) : String :=
  String.mk ((md5Digest (toUTF8Bytes s)).foldr
    (fun b acc => hexDigit (b / 16) :: hexDigit (b % 16) :: acc) [])

/-- Value of a (lowercase) hex digit, as in `parseInt(,16)`. -/
def hexVal (c : Char) : ℕ := if c.toNat <= 57 then c.toNat - 48 else c.toNat - 87

/-- `parseInt(s, 16)` on a string of valid hex digits. -/
def parseHexNat (s : String) : ℕ := s.data.foldl (fun acc c => acc * 16 + hexVal c) 0

/-- `deterministicJitter` from `quossi_2_0/route.ts`: first 8 hex characters of
the MD5 digest, parsed base 16, mod `span` (default 31), shifted by -15. -/
def deterministicJitter (message : String) (span : ℕ := 31) : ℤ :=
  let h := md5Hex message
  ((parseHexNat (String.mk (h.data.take 8)) % span : ℕ) : ℤ) - 15

/-- The jitter in the words of the claim: an MD5 digest truncated to its first
8 hex characters, parsed as an integer, reduced modulo 31, shifted into
[-15, +15]. -/
def jitterClaimed (message : String) : ℤ :=
  ((parseHexNat (String.mk ((md5Hex message).data.take 8)) % 31 : ℕ) : ℤ) - 15

/-- The `BASE_BY_TONE` table from `quossi_2_0/route.ts`. -/
def BASE_BY_TONE : List (String × ℤ) :=
  [("anxious", 150), ("neutral", 250), ("positive", 350), ("high-energy", 400)]

/-- `BASE_BY_TONE[tone] ?? 250`. -/
def baseForTone (tone : String) : ℤ :=
  ((BASE_BY_TONE.find? (fun p => p.1 == tone)).map Prod.snd).getD 250

/-- `calculateQScore` from `quossi_2_0/route.ts`. -/
def calculateQScore (message : String) : ℤ :=
  let tone := analyzeTone message
  let stability := emotionalStability message
  let base := baseForTone tone
  let adjusted := base + jsTrunc (((stability : ℚ) - 50) / 2) + deterministicJitter message
  clamp adjusted 100 600

/-- One history entry (`updateMemoryObj` push); the timestamp is omitted —
it never affects any computed statistic. -/
structure ScoreRec where
  message : String
  qscore : ℤ
  tone : String
deriving DecidableEq, Repr

/-- Per-user memory object (`loadMemory` default `{user, history: []}`). -/
structure Memory where
  user : String
  nickname : Option String := none
  history : List ScoreRec := []
deriving DecidableEq, Repr

/-- The result object of `computeSummary`. -/
structure Summary where
  user : String
  nickname : Option String
  tone : String
  qscore : ℤ
  range : RangeInfo
  mainQscore : Option ℤ
  trendSlope : ℚ
  volatility : Option ℤ
  streak : String × ℕ
  reflection : String
deriving DecidableEq, Repr

/-- JS `a || b` on possibly-missing strings (empty string is falsy). -/
def jsOrStr (a b : Option String) : Option String :=
  match a with
  | some s => if s = "" then b else some s
  | none => b

def ROLLING_WINDOW : ℕ := 10

def SLOPE_WINDOW : ℕ := 7

/-- JS `slice(-n)`: the last `n` elements (all of them if fewer). -/
def lastN (n : ℕ) (l : List α) : List α := l.drop (l.length - n)

/-- `linearSlope` from `quossi_2_0/route.ts` (ordinary least squares against
index 0..n-1). -/
def linearSlope (arr : List ℤ) : ℚ :=
  let n := arr.length
  if n < 2 then 0
  else
    let xSum : ℚ := (((n - 1) * n : ℕ) : ℚ) / 2
    let x2Sum : ℚ := (((n - 1) * n * (2 * n - 1) : ℕ) : ℚ) / 6
    let ySum : ℚ := ((arr.foldl (· + ·) 0 : ℤ) : ℚ)
    let xySum : ℚ := ((arr.enum.foldl (fun acc p => acc + (p.1 : ℤ) * p.2) 0 : ℤ) : ℚ)
    let denom := (n : ℚ) * x2Sum - xSum ^ 2
    if denom = 0 then 0 else ((n : ℚ) * xySum - xSum * ySum) / denom

/-- `Math.round(Math.sqrt v)` for a nonnegative rational: the least `n` with
`4v < (2n+1)^2` (i.e. `sqrt v < n + 1/2`). -/
def roundSqrt (v : ℚ) : ℕ :=
  Nat.find (p := fun n => 4 * v < ((2 * n + 1 : ℕ) : ℚ) ^ 2) (by
    rcases le_or_lt v 0 with h | h
    · exact ⟨0, by push_cast; nlinarith⟩
    · refine ⟨v.num.toNat, ?_⟩
      have hv : v ≤ ((v.num.toNat : ℕ) : ℚ) := by
        have h1 : v ≤ (v.num : ℚ) := by
          conv_lhs => rw [← Rat.num_div_den v]
          apply div_le_self
          · exact_mod_cast (Rat.num_pos.mpr h).le
          · exact_mod_cast v.den_pos
        have h2 : ((v.num.toNat : ℕ) : ℚ) = (v.num : ℚ) := by
          exact_mod_cast congrArg (fun z : ℤ => (z : ℚ))
            (Int.toNat_of_nonneg (Rat.num_pos.mpr h).le)
        rw [h2]
        exact h1
      push_cast
      nlinarith [sq_nonneg ((v.num.toNat : ℕ) : ℚ)])

/-- `popStdDev` from `quossi_2_0/route.ts`: population standard deviation,
rounded; `null` below 2 samples. -/
def popStdDev (nums : List ℤ) : Option ℤ :=
  if nums.length < 2 then none
  else
    let n : ℚ := nums.length
    let mean : ℚ := ((nums.foldl (· + ·) 0 : ℤ) : ℚ) / n
    let v : ℚ := (nums.foldl (fun acc x => acc + ((x : ℚ) - mean) ^ 2) 0) / n
    some (roundSqrt v)

/-- `weightedMainQscore` from `quossi_2_0/route.ts`: linear-ramp weighted
average, rounded; `null` on empty input. -/
def weightedMainQscore (scores : List ℤ) : Option ℤ :=
  if scores = [] then none
  else
    let weights : List ℤ := (List.range scores.length).map (fun i => (i : ℤ) + 1)
    let num : ℤ := (scores.zip weights).foldl (fun acc p => acc + p.1 * p.2) 0
    let den : ℤ := weights.foldl (· + ·) 0
    some (jsRound ((num : ℚ) / (den : ℚ)))

/-- `hypeReflection` from `quossi_2_0/route.ts`. -/
def hypeReflection (tone : String) (qrange : RangeInfo) (slope : ℚ) : String :=
  let trendHint :=
    if slope > 0.5 then "You’re trending up — keep channeling that rhythm."
    else if slope < -0.5 then "Tiny wobble — slow the breath, steady the hands."
    else "You’re steady — consistency compounds."
  if tone = "anxious" then
    "You sound tense, but self-aware — " ++ qrange.name ++
      " energy. Breathe. Let’s steady those hands. " ++ trendHint
  else if tone = "neutral" then
    "You’re composed — classic " ++ qrange.name ++ " range. Builder focus on. " ++ trendHint
  else if tone = "positive" then
    "Calm confidence detected — pure " ++ qrange.name ++ " flow. Stay locked in. " ++ trendHint
  else if tone = "high-energy" then
    "Hyped and focused — " ++ qrange.name ++ " elite energy. Channel it with patience. " ++ trendHint
  else "Clarity compounds. " ++ trendHint

/-- `updateMemoryObj` from `quossi_2_0/route.ts`. -/
def updateMemoryObj (mem : Memory) (message : String) (qscore : ℤ) (tone : String)
    (nickname : Option String) : Memory :=
  { mem with
    nickname := jsOrStr nickname mem.nickname
    history := mem.history ++ [⟨message, qscore, tone⟩] }

/-- `computeSummary` from `quossi_2_0/route.ts`. -/
def computeSummary (message user : String) (nickname : Option String)
    (preMem : Option Memory) : Summary :=
  let tone := analyzeTone message
  let qscore := calculateQScore message
  let qrange := assignRange qscore
  let mem := updateMemoryObj (preMem.getD { user := user }) message qscore tone nickname
  let recent := (lastN ROLLING_WINDOW mem.history).map (·.qscore)
  let slope := if recent.length ≠ 0 then linearSlope (lastN SLOPE_WINDOW recent) else 0
  { user := user
    nickname := jsOrStr mem.nickname (jsOrStr nickname none)
    tone := tone
    qscore := qscore
    range := qrange
    mainQscore := weightedMainQscore recent
    trendSlope := slope
    volatility := popStdDev recent
    streak := streakDirection recent
    reflection := hypeReflection tone qrange slope }

/-- `memory.chat_state`; a missing or malformed state reads as
`count = 0, threshold = 0, buffer = []` via `Number(x || 0)`. -/
structure ChatState where
  count : ℕ
  threshold : ℕ
  buffer : List String
deriving DecidableEq, Repr

/-- The JSON body of one chat-branch response. -/
inductive ChatResp where
  /-- 400 `{error: "Invalid chat message"}` -/
  | invalid
  /-- 202 `{status: "queued", count, threshold}` -/
  | queued (count threshold : ℕ)
  /-- 200: the `computeSummary` object itself (no `status` key) -/
  | result (out : Summary)
deriving DecidableEq, Repr

/-- The `status` field of the response JSON, when present. -/
def respStatus : ChatResp → Option String
  | .queued _ _ => some "queued"
  | .invalid => none
  | .result _ => none

/-- The chat-event branch of the POST handler in `quossi_2_0/route.ts`.
`d1`, `d2` stand for the two draws of `Math.floor(Math.random() * 6)` (taken
mod 6) used to (re)draw a threshold. -/
def chatStep (st : ChatState) (msg user : String) (nickname : Option String)
    (d1 d2 : ℕ) : ChatState × ChatResp :=
  if jsTrimStr msg = "" then (st, .invalid)
  else
    let threshold := if st.threshold < 15 ∨ 20 < st.threshold then 15 + d1 % 6 else st.threshold
    let buffer := st.buffer ++ [jsTrimStr msg]
    let count := st.count + 1
    if count < threshold then
      ({ count := count, threshold := threshold, buffer := buffer }, .queued count threshold)
    else
      let combined := String.intercalate " | " (buffer.filter (fun m => decide (jsTrimStr m ≠ "")))
      let out := computeSummary combined user nickname none
      ({ count := 0, threshold := 15 + d2 % 6, buffer := [] }, .result out)

/-- Feed a list of chat messages through `chatStep`, collecting the responses
and the final stored state. -/
def chatRun (st : ChatState) (user : String) (nickname : Option String)
    (d1 d2 : ℕ) : List String → List ChatResp × ChatState
  | [] => ([], st)
  | m :: ms =>
      let s1 := chatStep st m user nickname d1 d2
      let rest := chatRun s1.1 user nickname d1 d2 ms
      (s1.2 :: rest.1, rest.2)

theorem jsRound_intCast_add (n : ℤ) (x : ℚ) : jsRound ((n : ℚ) + x) = n + jsRound x := by
  unfold jsRound
  rw [add_assoc, Int.floor_int_add]

theorem ema_sub_last (q l : ℤ) :
    ema q (some l) - l = ⌊(3 * ((q : ℚ) - (l : ℚ))) / 10 + 1 / 2⌋ := by
  have h : (l : ℚ) * (1 - 3 / 10) + (q : ℚ) * (3 / 10)
      = (l : ℚ) + (3 * ((q : ℚ) - (l : ℚ))) / 10 := by ring
  show jsRound ((l : ℚ) * (1 - 3 / 10) + (q : ℚ) * (3 / 10)) - l = _
  rw [h, jsRound_intCast_add, add_sub_cancel_left]
  rfl

theorem abs_floor_three_tenths (d : ℤ) : |⌊(3 * (d : ℚ)) / 10 + 1 / 2⌋| ≤ |d| := by
  rcases le_or_lt 0 d with hd | hd
  · have hdq : (0 : ℚ) ≤ (d : ℚ) := by exact_mod_cast hd
    have h0 : (0 : ℤ) ≤ ⌊(3 * (d : ℚ)) / 10 + 1 / 2⌋ := by
      apply Int.le_floor.mpr
      norm_num
      linarith
    have h1 : ⌊(3 * (d : ℚ)) / 10 + 1 / 2⌋ < d + 1 := by
      apply Int.floor_lt.mpr
      push_cast
      linarith
    rw [abs_of_nonneg h0, abs_of_nonneg hd]
    omega
  · have hdq : (d : ℚ) < 0 := by exact_mod_cast hd
    have h0 : d ≤ ⌊(3 * (d : ℚ)) / 10 + 1 / 2⌋ := by
      apply Int.le_floor.mpr
      linarith
    have h1 : ⌊(3 * (d : ℚ)) / 10 + 1 / 2⌋ < -d + 1 := by
      apply Int.floor_lt.mpr
      push_cast
      linarith
    rw [abs_of_neg hd]
    rcases abs_cases (⌊(3 * (d : ℚ)) / 10 + 1 / 2⌋) with ⟨he, _⟩ | ⟨he, _⟩ <;> omega

/-- C4: quantize-then-smooth is a contraction: with a non-null previous score `p`,
`|ema q (some p) - p| ≤ |q - p|`; with a null previous score the smoothed score
equals the quantized current score. -/
theorem ema_contraction (p q : ℤ) :
    |ema q (some p) - p| ≤ |q - p| ∧ ema q none = q := by
  constructor
  · rw [ema_sub_last]
    have h := abs_floor_three_tenths (q - p)
    have hc : ((q - p : ℤ) : ℚ) = (q : ℚ) - (p : ℚ) := by push_cast; ring
    rw [hc] at h
    exact h
  · rfl

/-- C10: `quantize` always lands on one of the five band midpoints; every input
below 200 (even below 100) maps to 150 and every input at or above 500 (even
above 600) maps to 550. -/
theorem quantize_total (q : ℤ) :
    (quantize q = 150 ∨ quantize q = 250 ∨ quantize q = 350 ∨
      quantize q = 450 ∨ quantize q = 550) ∧
    (q < 200 → quantize q = 150) ∧ (500 ≤ q → quantize q = 550) := by
  unfold quantize
  split_ifs <;> simp_all <;> omega

/-- Concrete instance of `quantize_total`: inputs outside [100,600] still land
on a midpoint. -/
theorem quantize_total_witness : quantize 99 = 150 ∧ quantize 601 = 550 :=
  ⟨(quantize_total 99).2.1 (by decide), (quantize_total 601).2.2 (by decide)⟩

theorem jsTrunc_intCast (n : ℤ) : jsTrunc ((n : ℤ) : ℚ) = n := by
  unfold jsTrunc
  split_ifs <;> simp

theorem jsRound_nonneg {x : ℚ} (hx : 0 ≤ x) : 0 ≤ jsRound x := by
  unfold jsRound
  exact Int.le_floor.mpr (by push_cast; linarith)

/-- C3 counterexample: for inputs outside [100,600] `assignRange` returns the
`Unknown` fallback record, not the lowest band (Storm). -/
theorem assignRange_oob_not_storm :
    assignRange 99 = unknownRange ∧ assignRange 99 ≠ infoOf stormRow ∧
    assignRange 601 = unknownRange := by decide

/-- C3 (amended): `assignRange` is total; on [100,600] it returns the unique
band containing the score, and outside [100,600] it returns the `Unknown`
fallback record rather than erroring. -/
theorem assignRange_total (q : ℤ) :
    (∀ r ∈ RANGES, bandContains r q → assignRange q = infoOf r) ∧
    (100 ≤ q → q ≤ 600 → ∃ r ∈ RANGES, bandContains r q) ∧
    (∀ r ∈ RANGES, ∀ s ∈ RANGES, bandContains r q → bandContains s q → r = s) ∧
    ((q < 100 ∨ 600 < q) → assignRange q = unknownRange) := by
  refine ⟨?_, ?_, ?_, ?_⟩
  · intro r hr hc
    fin_cases hr <;>
      simp only [bandContains, stormRow, groundRow, flowRow, goldRow, sunRow] at hc <;>
      simp only [assignRange, RANGES, assignRangeGo, stormRow, groundRow, flowRow,
        goldRow, sunRow] <;>
      split_ifs <;> first | rfl | omega
  · intro h1 h2
    rcases (show q ≤ 199 ∨ (200 ≤ q ∧ q ≤ 299) ∨ (300 ≤ q ∧ q ≤ 399) ∨
        (400 ≤ q ∧ q ≤ 499) ∨ 500 ≤ q by omega) with h | h | h | h | h
    · exact ⟨stormRow, by simp [RANGES], by simp only [bandContains, stormRow]; omega⟩
    · exact ⟨groundRow, by simp [RANGES], by simp only [bandContains, groundRow]; omega⟩
    · exact ⟨flowRow, by simp [RANGES], by simp only [bandContains, flowRow]; omega⟩
    · exact ⟨goldRow, by simp [RANGES], by simp only [bandContains, goldRow]; omega⟩
    · exact ⟨sunRow, by simp [RANGES], by simp only [bandContains, sunRow]; omega⟩
  · intro r hr s hs hcr hcs
    fin_cases hr <;> fin_cases hs <;>
      first
        | rfl
        | (exfalso
           simp only [bandContains, stormRow, groundRow, flowRow, goldRow,
             sunRow] at hcr hcs
           omega)
  · intro h
    simp only [assignRange, RANGES, assignRangeGo, stormRow, groundRow, flowRow,
      goldRow, sunRow]
    split_ifs <;> first | rfl | omega

/-- Concrete instance of `assignRange_total`: 250 lies in Ground and 99 falls
back to Unknown. -/
theorem assignRange_total_witness :
    assignRange 250 = infoOf groundRow ∧ assignRange 99 = unknownRange :=
  ⟨(assignRange_total 250).1 groundRow (by decide) (by decide),
   (assignRange_total 99).2.2.2 (by decide)⟩

/-- C7: `emotionalStability` always returns an integer in [0,100], and returns
exactly 100 (calmest) on the empty message, whose length is lifted to 1. -/
theorem emotionalStability_range (m : String) :
    (0 ≤ emotionalStability m ∧ emotionalStability m ≤ 100) ∧
    emotionalStability "" = 100 := by
  refine ⟨⟨le_max_left 0 _, ?_⟩, ?_⟩
  case refine_2 =>
    unfold emotionalStability
    dsimp only
    norm_num [countRepeatRuns, jsRound, jsTrunc, show jsLength "" = 0 from rfl]
  unfold emotionalStability
  dsimp only
  rw [jsTrunc_intCast]
  have h0 : (0 : ℚ) ≤
      ((m.data.filter (fun c => c = '!' ∨ c = '?')).length : ℚ) * 1.2 +
        max 0 (((m.data.filter (fun c => 'A' ≤ c ∧ c ≤ 'Z')).length : ℚ) - 10) * 0.5 +
        (countRepeatRuns m.data : ℚ) * 2.0 := by positivity
  have hden : (0 : ℚ) < 1 + ((max 1 (jsLength m) : ℕ) : ℚ) / 120 := by positivity
  have hr := jsRound_nonneg (x :=
    (((m.data.filter (fun c => c = '!' ∨ c = '?')).length : ℚ) * 1.2 +
        max 0 (((m.data.filter (fun c => 'A' ≤ c ∧ c ≤ 'Z')).length : ℚ) - 10) * 0.5 +
        (countRepeatRuns m.data : ℚ) * 2.0) / (1 + ((max 1 (jsLength m) : ℕ) : ℚ) / 120) * 3)
    (by positivity)
  exact max_le (by norm_num) (by omega)

theorem userChar_not_ws {c : Char} (h : isUserChar c = true) : isJsWhitespace c = false := by
  unfold isUserChar at h
  have h' := of_decide_eq_true h
  unfold isJsWhitespace
  apply decide_eq_false
  intro hmem
  simp only [jsWhitespaceCodes, List.mem_cons, List.not_mem_nil, or_false] at hmem
  omega

theorem dropWhile_ws_of_all {l : List Char} (h : l.all isUserChar = true) :
    l.dropWhile isJsWhitespace = l := by
  cases l with
  | nil => rfl
  | cons c t =>
      have hc : isUserChar c = true := by
        simp only [List.all_cons, Bool.and_eq_true] at h
        exact h.1
      rw [List.dropWhile_cons]
      simp [userChar_not_ws hc]

theorem all_reverse_eq (l : List Char) (p : Char → Bool) : l.reverse.all p = l.all p :=
  List.all_reverse

theorem jsTrim_of_all {l : List Char} (h : l.all isUserChar = true) : jsTrim l = l := by
  unfold jsTrim
  rw [dropWhile_ws_of_all h, dropWhile_ws_of_all (by rw [all_reverse_eq]; exact h),
    List.reverse_reverse]

theorem map_repl_of_all {l : List Char} (h : l.all isUserChar = true) :
    l.map replDisallowed = l := by
  induction l with
  | nil => rfl
  | cons c t ih =>
      simp only [List.all_cons, Bool.and_eq_true] at h
      simp [replDisallowed, h.1, ih h.2]

theorem safeUser_clean {u : String} (h : cleanId u) : safeUser u = u := by
  obtain ⟨h1, h2⟩ := h
  unfold safeUser
  rw [if_neg h1]
  dsimp only
  rw [jsTrim_of_all h2, map_repl_of_all h2]

theorem sanitizeId_clean {u : String} (h : cleanId u) : sanitizeId u = u := by
  unfold sanitizeId
  rw [map_repl_of_all h.2]

/-- C9 counterexample: the id-sanitization step is not injective — the distinct
logical users `"a b"` and `"a_b"` share one storage key (memory file). -/
theorem user_key_collision :
    safeUser "a b" = safeUser "a_b" ∧ "a b" ≠ "a_b" ∧
    memoryFileName "a b" = memoryFileName "a_b" ∧
    sanitizeId "a b" = sanitizeId "a_b" := by decide

/-- C9 (amended): on ids made only of the allowed characters `[a-zA-Z0-9_-]`
the storage-key mappings (memory file name, and the `user_id` key of
`qscore-groq/route.ts`) are injective, so such users never share stored
memory; ids containing disallowed characters may collide after sanitization. -/
theorem sanitized_user_key_injective (u₁ u₂ : String)
    (h₁ : cleanId u₁) (h₂ : cleanId u₂) :
    (memoryFileName u₁ = memoryFileName u₂ → u₁ = u₂) ∧
    (sanitizeId u₁ = sanitizeId u₂ → u₁ = u₂) := by
  constructor
  · intro h
    unfold memoryFileName at h
    rw [safeUser_clean h₁, safeUser_clean h₂] at h
    have hd := congrArg String.data h
    simp only [String.data_append, List.append_assoc] at hd
    have hd2 := List.append_cancel_left hd
    have hd3 := List.append_cancel_right hd2
    cases u₁; cases u₂
    exact congrArg String.mk hd3
  · intro h
    rw [sanitizeId_clean h₁, sanitizeId_clean h₂] at h
    exact h

/-- Concrete instance of `sanitized_user_key_injective` at the clean id
`"alice"`. -/
theorem sanitized_user_key_injective_witness : "alice" = "alice" :=
  (sanitized_user_key_injective "alice" "alice" (by decide) (by decide)).1 rfl

theorem insertDesc_headD (x : String × ℤ) (l : List (String × ℤ)) (d : String × ℤ) :
    (insertDesc x l).headD d =
      match l with
      | [] => x
      | y :: _ => if y.2 > x.2 then y else x := by
  cases l with
  | nil => rfl
  | cons y ys =>
      show (if y.2 > x.2 then y :: insertDesc x ys else x :: y :: ys).headD d = _
      split_ifs with hgt <;> simp [hgt]

theorem sort_headD_eq (x : String × ℤ) (xs : List (String × ℤ)) (d : String × ℤ) :
    (sortByScoreDesc (x :: xs)).headD d = firstMaxRec x xs := by
  induction xs generalizing x with
  | nil => rfl
  | cons y ys ih =>
      show (insertDesc x (sortByScoreDesc (y :: ys))).headD d = _
      rw [insertDesc_headD]
      show (match insertDesc y (sortByScoreDesc ys) with
        | [] => x
        | z :: _ => if z.2 > x.2 then z else x) = _
      rcases he : insertDesc y (sortByScoreDesc ys) with _ | ⟨z, t⟩
      · exfalso
        revert he
        cases sortByScoreDesc ys with
        | nil => simp [insertDesc]
        | cons w t' =>
            show insertDesc y (w :: t') ≠ []
            show (if w.2 > y.2 then w :: insertDesc y t' else y :: w :: t') ≠ []
            split_ifs <;> simp
      · have hz : z = firstMaxRec y ys := by
          have h2 := ih y
          show z = _
          rw [← h2]
          show z = (sortByScoreDesc (y :: ys)).headD d
          show z = (insertDesc y (sortByScoreDesc ys)).headD d
          rw [he]
          rfl
        dsimp only
        rw [hz]
        rfl

theorem sortHead_eq (a p h n : ℤ) :
    ((sortByScoreDesc [("anxious", a), ("positive", p), ("high-energy", h),
        ("neutral", n)]).headD ("neutral", 0)).1
    = (if a ≥ p ∧ a ≥ h ∧ a ≥ n then "anxious"
       else if p ≥ h ∧ p ≥ n then "positive"
       else if h ≥ n then "high-energy"
       else "neutral") := by
  rw [sort_headD_eq]
  simp only [firstMaxRec]
  split_ifs <;> first | rfl | omega

/-- C6: `analyzeTone` returns the category with the strictly highest adjusted
keyword total (exclamation bonus on anxious, caps bonus on high-energy),
`neutral` when all totals are zero, and breaks ties by table declaration
order (anxious, positive, high-energy, neutral). -/
theorem analyzeTone_matches_claim (message : String) :
    analyzeTone message = claimedTone message := by
  obtain ⟨a, p, hE, n, htone⟩ : ∃ a p h n, toneScores message =
      [("anxious", a), ("positive", p), ("high-energy", h), ("neutral", n)] :=
    ⟨_, _, _, _, rfl⟩
  unfold analyzeTone claimedTone
  dsimp only
  rw [htone]
  simp only [List.all_cons, List.all_nil, Bool.and_eq_true, beq_iff_eq, and_true]
  rw [sortHead_eq]

theorem streakAux_cons2 (dir : String) (len : ℕ) (x y : ℤ) (rest : List ℤ) :
    streakAux dir len (x :: y :: rest) =
      if dir = "steady" then streakAux (stepOf (x - y)) 1 (y :: rest)
      else if stepOf (x - y) = dir ∧ stepOf (x - y) ≠ "steady" then
        streakAux dir (len + 1) (y :: rest)
      else (dir, len) := by
  rfl

theorem stepOf_ne_steady {d : ℤ} (hd : d ≠ 0) : stepOf d ≠ "steady" := by
  unfold stepOf
  split_ifs with h1 h2
  · decide
  · decide
  · omega

theorem stepOf_self_sub (a : ℤ) : stepOf (a - a) = "steady" := by
  rw [sub_self]
  rfl

/-- C8: the streak statistic of `streakDirection` — `[100,150,200,250]` yields
an up-streak of length 3; fewer than 2 samples yield ("steady", 1); a steady
adjacent pair immediately breaks extension of an existing non-steady run
(the run stops at the pair after it) but does not itself start a non-steady
run (a trailing steady pair is skipped, not counted). -/
theorem streak_spec :
    streakDirection [100, 150, 200, 250] = ("up", 3) ∧
    (∀ l : List ℤ, l.length < 2 → streakDirection l = ("steady", 1)) ∧
    (∀ (xs : List ℤ) (a c : ℤ), c ≠ a →
      streakDirection (xs ++ [a, a, c]) = (stepOf (c - a), 1)) ∧
    (∀ (xs : List ℤ) (a : ℤ),
      streakDirection (xs ++ [a, a]) = streakDirection (xs ++ [a])) := by
  refine ⟨by decide, ?_, ?_, ?_⟩
  · intro l hl
    unfold streakDirection
    rw [if_pos hl]
  · intro xs a c hc
    unfold streakDirection
    rw [if_neg (by simp only [List.length_append, List.length_cons, List.length_nil]; omega)]
    rw [show (xs ++ [a, a, c]).reverse = c :: a :: a :: xs.reverse by simp]
    rw [streakAux_cons2, if_pos rfl, streakAux_cons2,
      if_neg (stepOf_ne_steady (by omega)),
      if_neg (fun hco => hco.2 (stepOf_self_sub a))]
  · intro xs a
    cases xs with
    | nil =>
        show streakDirection [a, a] = streakDirection [a]
        unfold streakDirection
        rw [if_neg (by simp), if_pos (by simp)]
        rw [show ([a, a] : List ℤ).reverse = [a, a] by simp]
        rw [streakAux_cons2, if_pos rfl]
        show (stepOf (a - a), 1) = ("steady", 1)
        rw [stepOf_self_sub]
    | cons b bs =>
        unfold streakDirection
        rw [if_neg (by simp only [List.length_append, List.length_cons]; omega),
          if_neg (by simp only [List.length_append, List.length_cons]; omega)]
        rw [show ((b :: bs) ++ [a, a]).reverse = a :: a :: (b :: bs).reverse by simp,
          show ((b :: bs) ++ [a]).reverse = a :: (b :: bs).reverse by simp]
        rw [show (b :: bs).reverse = List.reverse (b :: bs) from rfl]
        rcases hrev : List.reverse (b :: bs) with _ | ⟨r, rs⟩
        · simp at hrev
        · rw [streakAux_cons2, if_pos rfl, stepOf_self_sub]

/-- Concrete instance of `streak_spec`: a trailing steady pair then a rise
gives an up-streak of length 1, and a single sample gives ("steady", 1). -/
theorem streak_spec_witness :
    streakDirection [7, 7, 9] = ("up", 1) ∧ streakDirection [5] = ("steady", 1) := by
  constructor
  · have h := streak_spec.2.2.1 [] 7 9 (by decide)
    simp only [List.nil_append] at h
    rw [h]
    norm_num [stepOf]
  · exact streak_spec.2.1 [5] (by decide)

theorem clamp_bounds (x lo hi : ℤ) (h : lo ≤ hi) :
    lo ≤ clamp x lo hi ∧ clamp x lo hi ≤ hi := by
  unfold clamp
  exact ⟨le_max_left lo _, max_le h (min_le_left hi x)⟩

/-- C1: for every message (including the empty string) the synthesized raw
score `calculateQScore` is an integer in [100,600]; it is a total function of
the message text alone (a plain function of the input in this embedding). -/
theorem calculateQScore_range (m : String) :
    100 ≤ calculateQScore m ∧ calculateQScore m ≤ 600 := by
  unfold calculateQScore
  dsimp only
  exact clamp_bounds _ 100 600 (by norm_num)

/-- C2: scoring is deterministic — the jitter is a pure function of the
message text (first 8 hex chars of the MD5 digest, parsed, mod 31, shifted
into [-15,15]), so two evaluations on equal messages agree, for the jitter and
for `calculateQScore`. -/
theorem score_deterministic (m m' : String) (hm : m = m') :
    deterministicJitter m = jitterClaimed m ∧
    (-15 ≤ deterministicJitter m ∧ deterministicJitter m ≤ 15) ∧
    deterministicJitter m = deterministicJitter m' ∧
    calculateQScore m = calculateQScore m' := by
  subst hm
  refine ⟨rfl, ⟨?_, ?_⟩, rfl, rfl⟩
  · unfold deterministicJitter
    dsimp only
    have h := Nat.mod_lt (parseHexNat (String.mk ((md5Hex m).data.take 8)))
      (show 0 < 31 by norm_num)
    omega
  · unfold deterministicJitter
    dsimp only
    have h := Nat.mod_lt (parseHexNat (String.mk ((md5Hex m).data.take 8)))
      (show 0 < 31 by norm_num)
    omega

/-- Concrete instance of `score_deterministic` at the message `"hello"`. -/
theorem score_deterministic_witness :
    -15 ≤ deterministicJitter "hello" ∧ deterministicJitter "hello" ≤ 15 :=
  (score_deterministic "hello" "hello" rfl).2.1


/-- C5 counterexample: in the chat-batch scenario (threshold 15, 15 messages),
the first 14 responses carry `status:"queued"` but the 15th response is the
bare summary object with no `status` field at all — not `status:"scored"`. -/
theorem chat_flush_has_no_status :
    ((chatRun ⟨0, 15, []⟩ "u" none 0 0 (List.replicate 15 "hello")).1.map respStatus =
      List.replicate 14 (some "queued") ++ [none]) ∧
    respStatus ((chatRun ⟨0, 15, []⟩ "u" none 0 0 (List.replicate 15 "hello")).1.getD 14
      .invalid) ≠ some "scored" := by
  constructor
  · decide
  · decide

/-- C5 (amended): the chat-batching state machine preserves the claimed
invariant and step behavior — below the threshold each valid message is
appended, the count increments, and a 202 `{status:"queued", count, threshold}`
is returned; at the threshold the buffered messages are joined with `" | "`,
the synthetic message is scored via `computeSummary`, and the state resets to
count 0, empty buffer, and a fresh threshold in [15,20]; the flush response is
the summary object itself (HTTP 200, no `status` field). With threshold 15,
messages 1..14 are queued with counts 1..14 and the 15th flushes. -/
theorem chat_batching_machine :
    (∀ (st : ChatState) (msg user : String) (nick : Option String) (d1 d2 : ℕ),
      jsTrimStr msg ≠ "" → 15 ≤ st.threshold → st.threshold ≤ 20 →
      (st.count + 1 < st.threshold →
        chatStep st msg user nick d1 d2 =
          (⟨st.count + 1, st.threshold, st.buffer ++ [jsTrimStr msg]⟩,
           .queued (st.count + 1) st.threshold)) ∧
      (st.threshold ≤ st.count + 1 →
        chatStep st msg user nick d1 d2 =
          (⟨0, 15 + d2 % 6, []⟩,
           .result (computeSummary
             (String.intercalate " | "
               ((st.buffer ++ [jsTrimStr msg]).filter (fun m => decide (jsTrimStr m ≠ ""))))
             user nick none))) ∧
      15 ≤ 15 + d2 % 6 ∧ 15 + d2 % 6 ≤ 20) ∧
    (∀ i : ℕ, i < 14 →
      (chatRun ⟨0, 15, []⟩ "u" none 0 0 (List.replicate 15 "hello")).1.getD i .invalid =
        .queued (i + 1) 15) ∧
    ((chatRun ⟨0, 15, []⟩ "u" none 0 0 (List.replicate 15 "hello")).2 = ⟨0, 15, []⟩) ∧
    ((chatRun ⟨0, 15, []⟩ "u" none 0 0 (List.replicate 15 "hello")).1.getD 14 .invalid =
      .result (computeSummary
        (String.intercalate " | " (List.replicate 15 "hello")) "u" none none)) := by
  refine ⟨?_, by decide, by decide, ?_⟩
  · intro st msg user nick d1 d2 hmsg h15 h20
    have hth : (if st.threshold < 15 ∨ 20 < st.threshold then 15 + d1 % 6 else st.threshold)
        = st.threshold := if_neg (by omega)
    have hd2 : d2 % 6 < 6 := Nat.mod_lt d2 (by norm_num)
    refine ⟨?_, ?_, by omega, by omega⟩
    · intro hlt
      unfold chatStep
      rw [if_neg hmsg]
      dsimp only
      rw [hth, if_pos hlt]
    · intro hge
      unfold chatStep
      rw [if_neg hmsg]
      dsimp only
      rw [hth, if_neg (by omega : ¬ st.count + 1 < st.threshold)]
  · show (chatRun ⟨0, 15, []⟩ "u" none 0 0 (List.replicate 15 "hello")).1.getD 14 .invalid = _
    rfl

/-- Concrete instance of `chat_batching_machine`: the 15th message flushes a
full buffer and resets the state. -/
theorem chat_batching_machine_witness :
    chatStep ⟨14, 15, List.replicate 14 "hi"⟩ "hi" "u" none 0 0 =
      (⟨0, 15, []⟩,
       .result (computeSummary
         (String.intercalate " | "
           ((List.replicate 14 "hi" ++ [jsTrimStr "hi"]).filter
             (fun m => decide (jsTrimStr m ≠ "")))) "u" none none)) := by
  have h := (chat_batching_machine.1 ⟨14, 15, List.replicate 14 "hi"⟩ "hi" "u" none 0 0
    (by decide) (by norm_num) (by norm_num)).2.1 (by norm_num)
  simpa using h

end Quossi
